import Mathlib

/-!
Verification of the pagination-aware scrape aggregation engine of the
`/api/scrape` endpoint (`server.js`, in-memory-session variant): data
model, per-page scraping, the three request branches (page range,
pagination, initial), deduplicating merge, and the HTTP-level outcomes.

JavaScript numbers are modelled as `Int` (page numbers, range bounds),
JS `Map` as an association list with insertion-order `set` semantics,
JS string falsiness (`""`, `undefined`, `null`) via `Option String`
and emptiness checks, and JS `Array.prototype.slice(0, n)` including
its negative-index behaviour.
-/

/-- A scraped breeder record: `{name, phone, location}`. -/
structure Record where
  name : String
  phone : String
  location : String
deriving Repr, DecidableEq

/-- JS `String.prototype.trim`: drop leading and trailing whitespace. -/
def strTrim (s : String) : String :=
  String.mk (((s.toList.dropWhile Char.isWhitespace).reverse.dropWhile Char.isWhitespace).reverse)

/-- JS `String.prototype.toLowerCase`, character-wise. -/
def strLower (s : String) : String :=
  String.mk (s.toList.map Char.toLower)

/-- `text.trim() || "-"`: trim whitespace, empty string falls back to `"-"`. -/
def normField (s : String) : String :=
  let t := strTrim s
  if t = "" then "-" else t

/-- `s.toLowerCase().replace(/\s+/g, "")`: lowercase and remove all whitespace. -/
def normKey (s : String) : String :=
  String.mk ((strLower s).toList.filter (fun c => !c.isWhitespace))

/-- The content-derived dedup key:
`` `${name}-${phone}-${location}`.toLowerCase().replace(/\s+/g, "") ``. -/
def recordKey (r : Record) : String :=
  normKey (r.name ++ "-" ++ r.phone ++ "-" ++ r.location)

/-- A row as pushed by `scrapeBreederPage`: the record fields plus the
precomputed `id` dedup key. -/
structure ScrapedItem where
  id : String
  name : String
  phone : String
  location : String
deriving Repr, DecidableEq

/-- `const { id, ...rest } = item; return rest`. -/
def stripId (item : ScrapedItem) : Record :=
  { name := item.name, phone := item.phone, location := item.location }

/-- The parts of a fetched HTML page the extractor reads: the `<td>` texts of
each `table tr` row, and the number in a `Showing ... of N entries` marker
when present. -/
structure Html where
  tableRows : List (List String)
  totalEntriesMarker : Option Nat
deriving Repr, DecidableEq

/-- Outcome of the HTTP GET for one page: a successful response body,
a non-ok HTTP status (`!response.ok`), or a thrown transport error
(timeout etc., the `catch` branch). -/
inductive FetchResult where
  | ok (html : Html)
  | httpError
  | netError
deriving Repr, DecidableEq

/-- The table extraction inside `scrapeBreederPage`: skip row index 0
(header), keep rows with at least 3 cells, map cells positionally to
name/phone/location with trim-and-default normalization, and attach the
content-derived `id`. -/
def extractBreeders (h : Html) : List ScrapedItem :=
  (h.tableRows.drop 1).filterMap fun cols =>
    match cols with
    | c0 :: c1 :: c2 :: _ =>
      let name := normField c0
      let phone := normField c1
      let location := normField c2
      some { id := normKey (name ++ "-" ++ phone ++ "-" ++ location),
             name := name, phone := phone, location := location }
    | _ => none

/-- Result shape of `scrapeBreederPage`. `entriesPerPage` is `Option` because
the `!response.ok` early return omits the field (JS `undefined`). -/
structure PageResult where
  data : List ScrapedItem
  hasMorePages : Bool
  totalEntries : Nat
  entriesPerPage : Option Nat
deriving Repr, DecidableEq

/-- `scrapeBreederPage(url, pageNum)` for a fixed base URL, parametrized by
the external site `site : page ↦ fetch outcome`:
  * `!response.ok` → `{ data: [], hasMorePages: false, totalEntries: 0 }`
    (no `entriesPerPage` field);
  * thrown error → `{ data: [], hasMorePages: false, totalEntries: 0,
    entriesPerPage: 25 }`;
  * success → extracted breeders, `totalEntries` from the marker (0 when
    absent), `entriesPerPage = 25`, and
    `hasMorePages = (pageNum-1)*25 + data.length < totalEntries`. -/
def scrapeBreederPage (site : Int → FetchResult) (pageNum : Int) : PageResult :=
  match site pageNum with
  | .httpError => { data := [], hasMorePages := false, totalEntries := 0, entriesPerPage := none }
  | .netError => { data := [], hasMorePages := false, totalEntries := 0, entriesPerPage := some 25 }
  | .ok html =>
    let totalEntries := html.totalEntriesMarker.getD 0
    let breeders := extractBreeders html
    let currentEntries : Int := (pageNum - 1) * 25 + breeders.length
    { data := breeders,
      hasMorePages := decide (currentEntries < (totalEntries : Int)),
      totalEntries := totalEntries,
      entriesPerPage := some 25 }

/-- The requested page range: `{start, end}` (the `end` field is called
`stop` here because `end` is a Lean keyword). -/
structure PageRangeReq where
  start : Int
  stop : Int
deriving Repr, DecidableEq

/-- Body of a `/api/scrape` request: `{url?, pagination?, pageRange?}`. -/
structure ScrapeRequest where
  url : Option String
  pagination : Bool
  pageRange : Option PageRangeReq
deriving Repr, DecidableEq

/-- Per-session state: `{ messages: [], scrapedData: null, currentPage: 1,
lastUrl: null }`. -/
structure Session where
  messages : List String
  scrapedData : Option (List Record)
  currentPage : Int
  lastUrl : Option String
deriving Repr, DecidableEq

/-- The session created for an unknown or absent session id. -/
def freshSession : Session :=
  { messages := [], scrapedData := none, currentPage := 1, lastUrl := none }

/-- JS truthiness of a string that may be `undefined`/`null`: truthy iff
present and nonempty. -/
def strTruthy : Option String → Bool
  | none => false
  | some s => s ≠ ""

/-- `arr.slice(0, n)` for an integer `n`: nonnegative `n` takes the first
`n` elements; negative `n` counts from the end (`length + n`, clamped at 0). -/
def jsSlice0 {α : Type} (l : List α) (n : Int) : List α :=
  if 0 ≤ n then l.take n.toNat
  else l.take ((l.length : Int) + n).toNat

/-- `if (item.id && !resultsMap.has(item.id)) resultsMap.set(item.id, item)`:
append the item iff its id is truthy and no item with that id is present. -/
def insertIfAbsent (m : List ScrapedItem) (item : ScrapedItem) : List ScrapedItem :=
  if item.id ≠ "" ∧ ¬ (m.any fun x => x.id = item.id) then m ++ [item] else m

/-- Mutable state of the page-range loop: the dedup `resultsMap` (JS `Map`
in insertion order), the `totalEntries` and `entriesPerPage` loop variables,
and the ordered list of pages for which a network fetch was issued. -/
structure RangeState where
  resultsMap : List ScrapedItem
  totalEntries : Nat
  entriesPerPage : Option Nat
  fetched : List Int
deriving Repr, DecidableEq

/-- One unfolding layer of the `for (let page = start; page <= end; page++)`
loop of the page-range branch, structurally recursive on a fuel that bounds
the remaining iterations: fetch the page; if its data is empty, break;
otherwise update the loop variables, merge the page's items into the results
map, and break early when `!hasMorePages && page < end`. -/
def rangeLoopAux (site : Int → FetchResult) (stop : Int) :
    Nat → Int → RangeState → RangeState
  | 0, _, st => st
  | fuel + 1, page, st =>
    if page > stop then st
    else
      let r := scrapeBreederPage site page
      let st1 := { st with fetched := st.fetched ++ [page] }
      if r.data = [] then st1
      else
        let st2 := { st1 with
          totalEntries := r.totalEntries,
          entriesPerPage := r.entriesPerPage,
          resultsMap := r.data.foldl insertIfAbsent st1.resultsMap }
        if ¬ r.hasMorePages ∧ page < stop then st2
        else rangeLoopAux site stop fuel (page + 1) st2

/-- The page-range loop from `page` to `stop`; the fuel `(stop + 1 - page)`
covers every iteration the source loop can perform (when `page > stop` the
loop body never runs, and each iteration advances `page` by one). -/
def rangeLoop (site : Int → FetchResult) (stop : Int) (page : Int) (st : RangeState) : RangeState :=
  rangeLoopAux site stop (stop + 1 - page).toNat page st

/-- What a branch of the endpoint produces: an early 404 error message or
the `results` array, together with the updated session and the pages
network-fetched. -/
structure BranchResult where
  out : Except String (List Record)
  sess : Session
  fetched : List Int
deriving Repr

/-- The clamp `const start = Math.max(1, pageRange.start)`. -/
def effStart (pr : PageRangeReq) : Int := max 1 pr.start

/-- The clamp `const end = Math.min(start + 5, pageRange.end)`. -/
def effStop (pr : PageRangeReq) : Int := min (effStart pr + 5) pr.stop

/-- The whole page-range loop run from its initial state
(`resultsMap = new Map()`, `totalEntries = 0`, `entriesPerPage = 25`). -/
def rangeScan (site : Int → FetchResult) (pr : PageRangeReq) : RangeState :=
  rangeLoop site (effStop pr) (effStart pr)
    { resultsMap := [], totalEntries := 0, entriesPerPage := some 25, fetched := [] }

/-- The final results of a page-range request: the loop's deduplicated map,
ids stripped, truncated with `slice(0, (end - start + 1) * entriesPerPage)`
(an `undefined` `entriesPerPage` would make the bound `NaN`, and
`slice(0, NaN)` is empty). -/
def rangeResults (site : Int → FetchResult) (pr : PageRangeReq) : List Record :=
  let st := rangeScan site pr
  let cap : Int := match st.entriesPerPage with
    | some n => (effStop pr - effStart pr + 1) * (n : Int)
    | none => 0
  jsSlice0 (st.resultsMap.map stripId) cap

/-- The page-range branch: clamp `start = max(1, start)` and
`end = min(start + 5, end)`, run the loop, and return the truncated
deduplicated results. Sets `session.currentPage = end`. -/
def pageRangeBranch (site : Int → FetchResult) (pr : PageRangeReq) (sess : Session) : BranchResult :=
  { out := .ok (rangeResults site pr),
    sess := { sess with currentPage := effStop pr },
    fetched := (rangeScan site pr).fetched }

/-- JS `Map.prototype.has`. -/
def mapHas (m : List (String × Record)) (k : String) : Bool :=
  m.any fun p => p.1 = k

/-- JS `Map.prototype.set`: update the value in place when the key is
present (keeping its insertion position), append otherwise. -/
def mapSet (m : List (String × Record)) (k : String) (v : Record) : List (String × Record) :=
  if m.any (fun p => p.1 = k) then
    m.map fun p => if p.1 = k then (k, v) else p
  else m ++ [(k, v)]

/-- `session.scrapedData.forEach(item => existingItems.set(uniqueId, item))`:
rebuild the `existingItems` map from the session's scraped data, keyed by
the recomputed content key. -/
def rebuildMap (existing : List Record) : List (String × Record) :=
  existing.foldl (fun m item => mapSet m (recordKey item) item) []

/-- `if (item.id && !existingItems.has(item.id))
existingItems.set(item.id, rest)`: add one incoming page item. -/
def addIncoming (m : List (String × Record)) (item : ScrapedItem) : List (String × Record) :=
  if item.id ≠ "" ∧ ¬ mapHas m item.id then mapSet m item.id (stripId item) else m

/-- The pagination-branch merge: rebuild a `Map` from the existing
`scrapedData` keyed by the recomputed content key, then add each incoming
item whose `id` is truthy and not yet present, and return the values. -/
def mergeDedup (existing : List Record) (incoming : List ScrapedItem) : List Record :=
  (incoming.foldl addIncoming (rebuildMap existing)).map fun p => p.2

/-- The `else if (pagination)` branch: fetch `currentPage + 1`; on zero
records return the 404 "No more data" error leaving the session cursor
unchanged; on success merge into the existing data (or take the page as-is
when there is none) and advance `currentPage`. -/
def paginationBranch (site : Int → FetchResult) (sess : Session) : BranchResult :=
  let nextPage := sess.currentPage + 1
  let r := scrapeBreederPage site nextPage
  if r.data = [] then
    { out := .error
        (s!"No more data found on page {nextPage}. You might have reached the end of the results."),
      sess := sess, fetched := [nextPage] }
  else
    let results := match sess.scrapedData with
      | some existing => mergeDedup existing r.data
      | none => r.data.map stripId
    { out := .ok results, sess := { sess with currentPage := nextPage }, fetched := [nextPage] }

/-- The initial (final `else`) branch: fetch page 1; on zero records return
the 404 "No breeder information found" error; otherwise return the page's
records with ids stripped and set `currentPage = 1`. -/
def initialBranch (site : Int → FetchResult) (sess : Session) : BranchResult :=
  let r := scrapeBreederPage site 1
  if r.data = [] then
    { out := .error
        "No breeder information found on the provided URL. Please check the URL and try again.",
      sess := sess, fetched := [1] }
  else
    { out := .ok (r.data.map stripId), sess := { sess with currentPage := 1 }, fetched := [1] }

/-- The dispatch guard `if (pageRange && pageRange.start && pageRange.end)`:
the range branch is selected only when the `pageRange` object is present and
both bounds are truthy numbers (nonzero). -/
def rangeRequested (req : ScrapeRequest) : Option PageRangeReq :=
  match req.pageRange with
  | some pr => if pr.start ≠ 0 ∧ pr.stop ≠ 0 then some pr else none
  | none => none

/-- Success payload of the endpoint. -/
structure ScrapeResponse where
  message : String
  results : List Record
  pageRangeEcho : Option PageRangeReq
  page : Int
  totalItems : Nat
deriving Repr, DecidableEq

/-- HTTP-level outcome of one `/api/scrape` call. -/
inductive ScrapeOutcome where
  | badRequest (msg : String)
  | notFound (msg : String)
  | success (resp : ScrapeResponse)
deriving Repr, DecidableEq

/-- The row written to the `scraped_content` table. -/
structure CacheWrite where
  url : String
  content : List Record
  pageCount : Int
deriving Repr, DecidableEq

/-- The best-effort `scraped_content` upsert, which may fail. -/
def attemptUpsert (upsertOk : Bool) : Except String Unit :=
  if upsertOk then .ok () else .error "Database storage error"

/-- The branch selection of the endpoint: the page-range branch when the
range guard holds, else the pagination branch when `pagination` is truthy,
else the initial branch. -/
def dispatchBranch (site : Int → FetchResult) (req : ScrapeRequest) (sess : Session) : BranchResult :=
  match rangeRequested req with
  | some pr => pageRangeBranch site pr sess
  | none => if req.pagination then paginationBranch site sess else initialBranch site sess

/-- Observable result of one endpoint call: the HTTP outcome, the session
left behind, the pages network-fetched, and the attempted cache write. -/
structure HandlerResult where
  outcome : ScrapeOutcome
  sess : Session
  fetched : List Int
  dbWrite : Option CacheWrite
deriving Repr, DecidableEq

/-- `const targetUrl = url || session.lastUrl`. -/
def resolvedUrl (req : ScrapeRequest) (sess : Session) : Option String :=
  if strTruthy req.url then req.url else sess.lastUrl

/-- The success JSON payload; both the message and the echoed range look at
the raw `pageRange` object of the request, not at the dispatch guard. -/
def successResponse (req : ScrapeRequest) (cur : Int) (results : List Record) : ScrapeResponse :=
  { message := match req.pageRange with
      | some pr => s!"Pages {pr.start} to {pr.stop} scraped successfully"
      | none => s!"Page {cur} scraped successfully",
    results := results,
    pageRangeEcho := req.pageRange,
    page := cur,
    totalItems := results.length }

/-- The `page_count` column of the upsert:
`pageRange ? pageRange.end - pageRange.start + 1 : session.currentPage`. -/
def upsertPageCount (req : ScrapeRequest) (cur : Int) : Int :=
  match req.pageRange with
  | some pr => pr.stop - pr.start + 1
  | none => cur

/-- The `/api/scrape` handler on a resolved session. `site` is the external
website (page number ↦ fetch outcome for the target URL), `cacheRow` is the
pre-existing `scraped_content` row for the target URL (the handler only ever
writes this table, a read never occurs in the source), `upsertOk` is whether
the best-effort upsert succeeds. Resolves `targetUrl = url || session.lastUrl`
(400 when falsy), stores it in the session, dispatches to the page-range /
pagination / initial branch, stores the results in `session.scrapedData`,
attempts the upsert inside its own try/catch (failure logged, not
propagated), and builds the JSON response. -/
def scrapeHandler (site : Int → FetchResult) (_cacheRow : Option (List Record))
    (upsertOk : Bool) (req : ScrapeRequest) (sess0 : Session) : HandlerResult :=
  let targetUrl := resolvedUrl req sess0
  if strTruthy targetUrl then
    let sess1 := { sess0 with lastUrl := targetUrl }
    let br := dispatchBranch site req sess1
    match br.out with
    | .error msg => { outcome := .notFound msg, sess := br.sess, fetched := br.fetched, dbWrite := none }
    | .ok results =>
      let sess2 := { br.sess with scrapedData := some results }
      let resp := successResponse req sess2.currentPage results
      let dbw := some
        { url := targetUrl.getD "",
          content := results,
          pageCount := upsertPageCount req sess2.currentPage }
      match attemptUpsert upsertOk with
      | .ok _ => { outcome := .success resp, sess := sess2, fetched := br.fetched, dbWrite := dbw }
      | .error _ => { outcome := .success resp, sess := sess2, fetched := br.fetched, dbWrite := dbw }
  else
    { outcome := .badRequest "No URL provided and no previous URL in session",
      sess := sess0, fetched := [], dbWrite := none }

/-! ### Characterizations of the handler's control flow -/

/-- The results carried by a success outcome (empty for errors). -/
def outcomeResults : ScrapeOutcome → List Record
  | .success r => r.results
  | _ => []

/-- A falsy target URL short-circuits to the 400 response. -/
theorem scrapeHandler_badRequest (site : Int → FetchResult) (c : Option (List Record))
    (b : Bool) (req : ScrapeRequest) (sess0 : Session)
    (h : strTruthy (resolvedUrl req sess0) = false) :
    scrapeHandler site c b req sess0 =
      { outcome := .badRequest "No URL provided and no previous URL in session",
        sess := sess0, fetched := [], dbWrite := none } := by
  unfold scrapeHandler
  simp [h]

/-- On a truthy target URL and a branch error, the handler returns 404 with
the branch's message, session, and fetched pages, and writes nothing. -/
theorem scrapeHandler_notFound (site : Int → FetchResult) (c : Option (List Record))
    (b : Bool) (req : ScrapeRequest) (sess0 : Session) (msg : String)
    (h : strTruthy (resolvedUrl req sess0) = true)
    (hbr : (dispatchBranch site req { sess0 with lastUrl := resolvedUrl req sess0 }).out = .error msg) :
    scrapeHandler site c b req sess0 =
      { outcome := .notFound msg,
        sess := (dispatchBranch site req { sess0 with lastUrl := resolvedUrl req sess0 }).sess,
        fetched := (dispatchBranch site req { sess0 with lastUrl := resolvedUrl req sess0 }).fetched,
        dbWrite := none } := by
  unfold scrapeHandler
  simp [h, hbr]

/-- On a truthy target URL and branch success, the handler returns the
success response built from the branch's results and cursor, stores the
results in the session, and attempts the upsert. -/
theorem scrapeHandler_ok (site : Int → FetchResult) (c : Option (List Record))
    (b : Bool) (req : ScrapeRequest) (sess0 : Session) (results : List Record)
    (h : strTruthy (resolvedUrl req sess0) = true)
    (hbr : (dispatchBranch site req { sess0 with lastUrl := resolvedUrl req sess0 }).out = .ok results) :
    scrapeHandler site c b req sess0 =
      { outcome := .success (successResponse req
          (dispatchBranch site req { sess0 with lastUrl := resolvedUrl req sess0 }).sess.currentPage
          results),
        sess := { (dispatchBranch site req { sess0 with lastUrl := resolvedUrl req sess0 }).sess with
                  scrapedData := some results },
        fetched := (dispatchBranch site req { sess0 with lastUrl := resolvedUrl req sess0 }).fetched,
        dbWrite := some { url := (resolvedUrl req sess0).getD "", content := results,
                          pageCount := upsertPageCount req
                            (dispatchBranch site req
                              { sess0 with lastUrl := resolvedUrl req sess0 }).sess.currentPage } } := by
  unfold scrapeHandler
  cases b <;> simp [h, hbr, attemptUpsert]

/-- A success outcome can only come from the dispatched branch succeeding
with exactly the response's results. -/
theorem scrapeHandler_success_inv (site : Int → FetchResult) (c : Option (List Record))
    (b : Bool) (req : ScrapeRequest) (sess0 : Session) (resp : ScrapeResponse)
    (h : (scrapeHandler site c b req sess0).outcome = .success resp) :
    strTruthy (resolvedUrl req sess0) = true ∧
    (dispatchBranch site req { sess0 with lastUrl := resolvedUrl req sess0 }).out = .ok resp.results := by
  by_cases hT : strTruthy (resolvedUrl req sess0)
  · refine ⟨hT, ?_⟩
    cases hbr : (dispatchBranch site req { sess0 with lastUrl := resolvedUrl req sess0 }).out with
    | error msg =>
      rw [scrapeHandler_notFound site c b req sess0 msg hT hbr] at h
      cases h
    | ok results =>
      rw [scrapeHandler_ok site c b req sess0 results hT hbr] at h
      cases h
      simp [successResponse]
  · rw [scrapeHandler_badRequest site c b req sess0 (by simpa using hT)] at h
    cases h

/-- The pages fetched by the handler are exactly those of the dispatched
branch (when the target URL is truthy). -/
theorem scrapeHandler_fetched (site : Int → FetchResult) (c : Option (List Record))
    (b : Bool) (req : ScrapeRequest) (sess0 : Session)
    (h : strTruthy (resolvedUrl req sess0) = true) :
    (scrapeHandler site c b req sess0).fetched =
      (dispatchBranch site req { sess0 with lastUrl := resolvedUrl req sess0 }).fetched := by
  cases hbr : (dispatchBranch site req { sess0 with lastUrl := resolvedUrl req sess0 }).out with
  | error msg => rw [scrapeHandler_notFound site c b req sess0 msg h hbr]
  | ok results => rw [scrapeHandler_ok site c b req sess0 results h hbr]

/-! ### The dedup-key discipline of extracted items -/

/-- An item whose `id` is exactly the content key recomputed from its
fields — the discipline `scrapeBreederPage` establishes. -/
def goodItem (item : ScrapedItem) : Prop :=
  item.id = recordKey (stripId item)

/-- Every extracted breeder's `id` is the content key of its fields. -/
theorem extractBreeders_good (h : Html) :
    ∀ item ∈ extractBreeders h, goodItem item := by
  intro item hmem
  rcases List.mem_filterMap.mp hmem with ⟨cols, _, hsome⟩
  match cols with
  | [] => simp at hsome
  | [c0] => simp at hsome
  | [c0, c1] => simp at hsome
  | c0 :: c1 :: c2 :: rest =>
    simp only [Option.some.injEq] at hsome
    subst hsome
    rfl

/-- Every item returned by `scrapeBreederPage` obeys the id discipline. -/
theorem scrapeBreederPage_good (site : Int → FetchResult) (p : Int) :
    ∀ item ∈ (scrapeBreederPage site p).data, goodItem item := by
  intro item hmem
  unfold scrapeBreederPage at hmem
  cases hsp : site p <;> rw [hsp] at hmem
  case ok html => exact extractBreeders_good html item hmem
  all_goals simp at hmem

/-- String concatenation concatenates the character lists. -/
theorem data_append_eq (s t : String) : (s ++ t).data = s.data ++ t.data := rfl

/-- The key of an extracted item is never the empty string: the raw key text
contains `'-'`, which is neither uppercase-mapped away nor whitespace. -/
theorem extractBreeders_id_ne (h : Html) :
    ∀ item ∈ extractBreeders h, item.id ≠ "" := by
  intro item hmem
  rcases List.mem_filterMap.mp hmem with ⟨cols, _, hsome⟩
  match cols with
  | [] => simp at hsome
  | [c0] => simp at hsome
  | [c0, c1] => simp at hsome
  | c0 :: c1 :: c2 :: rest =>
    simp only [Option.some.injEq] at hsome
    subst hsome
    simp only [ne_eq]
    intro hid
    have hdata : (normKey (normField c0 ++ "-" ++ normField c1 ++ "-" ++ normField c2)).data
        = ("" : String).data := by rw [hid]
    have hmemdash : '-' ∈ (normKey (normField c0 ++ "-" ++ normField c1 ++ "-" ++ normField c2)).data := by
      unfold normKey strLower
      simp only [String.toList]
      refine List.mem_filter.mpr ⟨List.mem_map.mpr ⟨'-', ?_, by decide⟩, by decide⟩
      simp only [data_append_eq]
      have hd : ('-' : Char) ∈ ("-" : String).data := by decide
      simp [List.mem_append, hd]
    rw [hdata] at hmemdash
    simp at hmemdash

/-- Ids already present persist through an insertion. -/
theorem mem_insertIfAbsent (m : List ScrapedItem) (item x : ScrapedItem)
    (hx : x ∈ m) : x ∈ insertIfAbsent m item := by
  unfold insertIfAbsent
  split <;> simp [hx]

/-- Items already present persist through a whole page's fold. -/
theorem mem_foldl_insertIfAbsent (l : List ScrapedItem) (m : List ScrapedItem)
    (x : ScrapedItem) (hx : x ∈ m) : x ∈ l.foldl insertIfAbsent m := by
  induction l generalizing m with
  | nil => exact hx
  | cons hd tl ih => exact ih _ (mem_insertIfAbsent m hd x hx)

/-- An insertion preserves any pointwise property that the inserted item has. -/
theorem insertIfAbsent_forall (P : ScrapedItem → Prop) (m : List ScrapedItem)
    (item : ScrapedItem) (hm : ∀ x ∈ m, P x) (hi : P item) :
    ∀ x ∈ insertIfAbsent m item, P x := by
  unfold insertIfAbsent
  split
  · intro x hx
    rcases List.mem_append.mp hx with h | h
    · exact hm x h
    · rw [List.mem_singleton.mp h]; exact hi
  · exact hm

/-- A page fold preserves any pointwise property that all folded items have. -/
theorem foldl_insertIfAbsent_forall (P : ScrapedItem → Prop) (l m : List ScrapedItem)
    (hm : ∀ x ∈ m, P x) (hl : ∀ x ∈ l, P x) :
    ∀ x ∈ l.foldl insertIfAbsent m, P x := by
  induction l generalizing m with
  | nil => exact hm
  | cons hd tl ih =>
    exact ih _ (insertIfAbsent_forall P m hd hm (hl hd (by simp))) (fun x hx => hl x (by simp [hx]))

/-- An insertion keeps the ids pairwise distinct. -/
theorem insertIfAbsent_ids_nodup (m : List ScrapedItem) (item : ScrapedItem)
    (h : (m.map ScrapedItem.id).Nodup) : ((insertIfAbsent m item).map ScrapedItem.id).Nodup := by
  by_cases hcond : item.id ≠ "" ∧ ¬ (m.any fun x => x.id = item.id)
  · rw [insertIfAbsent, if_pos hcond, List.map_append]
    refine List.Nodup.append h (by simp) ?_
    intro i hi hj
    simp only [List.map_cons, List.map_nil, List.mem_singleton] at hj
    subst hj
    rcases List.mem_map.mp hi with ⟨x, hx, hxid⟩
    exact hcond.2 (List.any_eq_true.mpr ⟨x, hx, by simp [hxid]⟩)
  · rw [insertIfAbsent, if_neg hcond]
    exact h

/-- A page fold keeps the ids pairwise distinct. -/
theorem foldl_insertIfAbsent_ids_nodup (l m : List ScrapedItem)
    (h : (m.map ScrapedItem.id).Nodup) : ((l.foldl insertIfAbsent m).map ScrapedItem.id).Nodup := by
  induction l generalizing m with
  | nil => exact h
  | cons hd tl ih => exact ih _ (insertIfAbsent_ids_nodup m hd h)

/-! ### Invariants of the page-range loop -/

/-- A page with a nonempty data list always reports 25 entries per page
(only the success path of `scrapeBreederPage` can return data, and it sets
`entriesPerPage = 25`). -/
theorem scrapeBreederPage_entriesPerPage (site : Int → FetchResult) (p : Int)
    (h : (scrapeBreederPage site p).data ≠ []) :
    (scrapeBreederPage site p).entriesPerPage = some 25 := by
  unfold scrapeBreederPage at h ⊢
  cases hsp : site p <;> simp_all

/-- The loop's `entriesPerPage` variable stays 25. -/
theorem rangeLoopAux_entriesPerPage (site : Int → FetchResult) (stop : Int) :
    ∀ (fuel : Nat) (page : Int) (st : RangeState), st.entriesPerPage = some 25 →
      (rangeLoopAux site stop fuel page st).entriesPerPage = some 25 := by
  intro fuel
  induction fuel with
  | zero => intro page st h; simpa [rangeLoopAux] using h
  | succ fuel ih =>
    intro page st h
    simp only [rangeLoopAux]
    by_cases hgt : page > stop
    · rw [if_pos hgt]; exact h
    · rw [if_neg hgt]
      by_cases hempty : (scrapeBreederPage site page).data = []
      · rw [if_pos hempty]; exact h
      · rw [if_neg hempty]
        by_cases hbreak : ¬ (scrapeBreederPage site page).hasMorePages = true ∧ page < stop
        · rw [if_pos hbreak]
          exact scrapeBreederPage_entriesPerPage site page hempty
        · rw [if_neg hbreak]
          exact ih (page + 1) _ (scrapeBreederPage_entriesPerPage site page hempty)

/-- Items in the results map persist through the rest of the loop. -/
theorem rangeLoopAux_resultsMap_mono (site : Int → FetchResult) (stop : Int) :
    ∀ (fuel : Nat) (page : Int) (st : RangeState) (x : ScrapedItem),
      x ∈ st.resultsMap → x ∈ (rangeLoopAux site stop fuel page st).resultsMap := by
  intro fuel
  induction fuel with
  | zero => intro page st x hx; simpa [rangeLoopAux] using hx
  | succ fuel ih =>
    intro page st x hx
    simp only [rangeLoopAux]
    by_cases hgt : page > stop
    · rw [if_pos hgt]; exact hx
    · rw [if_neg hgt]
      by_cases hempty : (scrapeBreederPage site page).data = []
      · rw [if_pos hempty]; exact hx
      · rw [if_neg hempty]
        by_cases hbreak : ¬ (scrapeBreederPage site page).hasMorePages = true ∧ page < stop
        · rw [if_pos hbreak]
          exact mem_foldl_insertIfAbsent _ _ x hx
        · rw [if_neg hbreak]
          exact ih (page + 1) _ x (mem_foldl_insertIfAbsent _ _ x hx)

/-- Ids present in the results map persist through the rest of the loop. -/
theorem rangeLoopAux_ids_mono (site : Int → FetchResult) (stop : Int)
    (fuel : Nat) (page : Int) (st : RangeState) (i : String)
    (hi : i ∈ st.resultsMap.map ScrapedItem.id) :
    i ∈ (rangeLoopAux site stop fuel page st).resultsMap.map ScrapedItem.id := by
  rcases List.mem_map.mp hi with ⟨x, hx, hxi⟩
  exact List.mem_map.mpr ⟨x, rangeLoopAux_resultsMap_mono site stop fuel page st x hx, hxi⟩

/-- The loop preserves the id discipline of the results map. -/
theorem rangeLoopAux_resultsMap_good (site : Int → FetchResult) (stop : Int) :
    ∀ (fuel : Nat) (page : Int) (st : RangeState),
      (∀ x ∈ st.resultsMap, goodItem x) →
      ∀ x ∈ (rangeLoopAux site stop fuel page st).resultsMap, goodItem x := by
  intro fuel
  induction fuel with
  | zero => intro page st h; simpa [rangeLoopAux] using h
  | succ fuel ih =>
    intro page st h
    simp only [rangeLoopAux]
    by_cases hgt : page > stop
    · rw [if_pos hgt]; exact h
    · rw [if_neg hgt]
      by_cases hempty : (scrapeBreederPage site page).data = []
      · rw [if_pos hempty]; exact h
      · rw [if_neg hempty]
        by_cases hbreak : ¬ (scrapeBreederPage site page).hasMorePages = true ∧ page < stop
        · rw [if_pos hbreak]
          exact foldl_insertIfAbsent_forall goodItem _ _ h (scrapeBreederPage_good site page)
        · rw [if_neg hbreak]
          exact ih (page + 1) _
            (foldl_insertIfAbsent_forall goodItem _ _ h (scrapeBreederPage_good site page))

/-- The loop keeps the results map's ids pairwise distinct. -/
theorem rangeLoopAux_resultsMap_nodup (site : Int → FetchResult) (stop : Int) :
    ∀ (fuel : Nat) (page : Int) (st : RangeState),
      (st.resultsMap.map ScrapedItem.id).Nodup →
      ((rangeLoopAux site stop fuel page st).resultsMap.map ScrapedItem.id).Nodup := by
  intro fuel
  induction fuel with
  | zero => intro page st h; simpa [rangeLoopAux] using h
  | succ fuel ih =>
    intro page st h
    simp only [rangeLoopAux]
    by_cases hgt : page > stop
    · rw [if_pos hgt]; exact h
    · rw [if_neg hgt]
      by_cases hempty : (scrapeBreederPage site page).data = []
      · rw [if_pos hempty]; exact h
      · rw [if_neg hempty]
        by_cases hbreak : ¬ (scrapeBreederPage site page).hasMorePages = true ∧ page < stop
        · rw [if_pos hbreak]
          exact foldl_insertIfAbsent_ids_nodup _ _ h
        · rw [if_neg hbreak]
          exact ih (page + 1) _ (foldl_insertIfAbsent_ids_nodup _ _ h)

/-- The list `start, start+1, ..., start+n-1`. -/
def consecutiveInts (start : Int) (n : Nat) : List Int :=
  (List.range n).map fun (i : Nat) => start + (i : Int)

/-- Peeling the first page off a consecutive run. -/
theorem consecutiveInts_cons (start : Int) (n : Nat) :
    consecutiveInts start (n + 1) = start :: consecutiveInts (start + 1) n := by
  unfold consecutiveInts
  rw [List.range_succ_eq_map, List.map_cons, List.map_map]
  congr 1
  · simp
  · apply List.map_congr_left
    intro i _
    simp only [Function.comp_apply]
    push_cast
    ring

/-- One-element consecutive run. -/
theorem consecutiveInts_one (start : Int) : consecutiveInts start 1 = [start] := by
  rw [consecutiveInts_cons]
  rfl

/-- The pages fetched by the loop form a consecutive run starting at `page`,
bounded by the fuel and by `stop`, and only the last fetched page can have
returned an empty data list (an empty page breaks the loop). -/
theorem rangeLoopAux_fetched_spec (site : Int → FetchResult) (stop : Int) :
    ∀ (fuel : Nat) (page : Int) (st : RangeState), ∃ n : Nat,
      (rangeLoopAux site stop fuel page st).fetched = st.fetched ++ consecutiveInts page n ∧
      n ≤ fuel ∧
      (∀ i : Nat, i < n → page + (i : Int) ≤ stop) ∧
      (∀ i : Nat, i + 1 < n → (scrapeBreederPage site (page + (i : Int))).data ≠ []) := by
  intro fuel
  induction fuel with
  | zero =>
    intro page st
    exact ⟨0, by simp [rangeLoopAux, consecutiveInts], Nat.le_refl 0,
      fun i hi => absurd hi (Nat.not_lt_zero i), fun i hi => absurd hi (by omega)⟩
  | succ fuel ih =>
    intro page st
    simp only [rangeLoopAux]
    by_cases hgt : page > stop
    · rw [if_pos hgt]
      exact ⟨0, by simp [consecutiveInts], by omega, fun i hi => absurd hi (by omega),
        fun i hi => absurd hi (by omega)⟩
    · rw [if_neg hgt]
      by_cases hempty : (scrapeBreederPage site page).data = []
      · rw [if_pos hempty]
        refine ⟨1, by simp [consecutiveInts_one], by omega, ?_, by intro i hi; omega⟩
        intro i hi
        have hi0 : i = 0 := by omega
        subst hi0
        simpa using (show page ≤ stop by omega)
      · rw [if_neg hempty]
        by_cases hbreak : ¬ (scrapeBreederPage site page).hasMorePages = true ∧ page < stop
        · rw [if_pos hbreak]
          refine ⟨1, by simp [consecutiveInts_one], by omega, ?_, by intro i hi; omega⟩
          intro i hi
          have hi0 : i = 0 := by omega
          subst hi0
          simpa using (show page ≤ stop by omega)
        · rw [if_neg hbreak]
          obtain ⟨n, hfe, hle, hbnd, hne⟩ := ih (page + 1) _
          refine ⟨n + 1, ?_, by omega, ?_, ?_⟩
          · rw [hfe, consecutiveInts_cons]
            simp
          · intro i hi
            cases i with
            | zero => simpa using (show page ≤ stop by omega)
            | succ j =>
              have hb := hbnd j (by omega)
              have harith : page + ((j + 1 : Nat) : Int) = (page + 1) + (j : Int) := by
                push_cast; ring
              rw [harith]; exact hb
          · intro i hi
            cases i with
            | zero => simpa using hempty
            | succ j =>
              have hd := hne j (by omega)
              have harith : page + ((j + 1 : Nat) : Int) = (page + 1) + (j : Int) := by
                push_cast; ring
              rw [harith]; exact hd

/-- Ids present in the map remain after a whole page's fold. -/
theorem foldl_insertIfAbsent_ids_mono (l m : List ScrapedItem) (i : String)
    (hi : i ∈ m.map ScrapedItem.id) : i ∈ (l.foldl insertIfAbsent m).map ScrapedItem.id := by
  rcases List.mem_map.mp hi with ⟨x, hx, hxi⟩
  exact List.mem_map.mpr ⟨x, mem_foldl_insertIfAbsent l m x hx, hxi⟩

/-- After inserting an item with a truthy id, some item with that id is
present (either the inserted one or a pre-existing one). -/
theorem mem_ids_insertIfAbsent_self (m : List ScrapedItem) (item : ScrapedItem)
    (hid : item.id ≠ "") :
    item.id ∈ (insertIfAbsent m item).map ScrapedItem.id := by
  by_cases hcond : item.id ≠ "" ∧ ¬ (m.any fun x => x.id = item.id)
  · rw [insertIfAbsent, if_pos hcond]
    simp
  · rw [insertIfAbsent, if_neg hcond]
    have hany : (m.any fun x => x.id = item.id) = true := by
      by_contra hny
      exact hcond ⟨hid, by simpa using hny⟩
    rcases List.any_eq_true.mp hany with ⟨x, hx, hxid⟩
    exact List.mem_map.mpr ⟨x, hx, by simpa using hxid⟩

/-- Folding a page containing `item` leaves `item.id` represented in the map. -/
theorem foldl_insertIfAbsent_mem_id (l : List ScrapedItem) :
    ∀ (m : List ScrapedItem) (item : ScrapedItem), item ∈ l → item.id ≠ "" →
      item.id ∈ ((l.foldl insertIfAbsent m).map ScrapedItem.id) := by
  induction l with
  | nil => intro m item h; cases h
  | cons hd tl ih =>
    intro m item hmem hid
    rcases List.mem_cons.mp hmem with heq | htl
    · subst heq
      exact foldl_insertIfAbsent_ids_mono tl _ _ (mem_ids_insertIfAbsent_self m item hid)
    · exact ih _ item htl hid

/-- Every page fetched during the loop leaves each of its items (with truthy
id) represented in the final results map. -/
theorem rangeLoopAux_persist (site : Int → FetchResult) (stop : Int) :
    ∀ (fuel : Nat) (page : Int) (st : RangeState) (p : Int),
      p ∈ (rangeLoopAux site stop fuel page st).fetched → p ∉ st.fetched →
      ∀ item ∈ (scrapeBreederPage site p).data, item.id ≠ "" →
        item.id ∈ ((rangeLoopAux site stop fuel page st).resultsMap.map ScrapedItem.id) := by
  intro fuel
  induction fuel with
  | zero =>
    intro page st p hp hnp
    rw [rangeLoopAux] at hp
    exact absurd hp hnp
  | succ fuel ih =>
    intro page st p hp hnp item hitem hid
    simp only [rangeLoopAux] at hp ⊢
    by_cases hgt : page > stop
    · rw [if_pos hgt] at hp ⊢
      exact absurd hp hnp
    · rw [if_neg hgt] at hp ⊢
      by_cases hempty : (scrapeBreederPage site page).data = []
      · rw [if_pos hempty] at hp ⊢
        have hpp : p = page := by
          rcases List.mem_append.mp hp with h | h
          · exact absurd h hnp
          · simpa using h
        subst hpp
        rw [hempty] at hitem
        cases hitem
      · rw [if_neg hempty] at hp ⊢
        by_cases hbreak : ¬ (scrapeBreederPage site page).hasMorePages = true ∧ page < stop
        · rw [if_pos hbreak] at hp ⊢
          have hpp : p = page := by
            rcases List.mem_append.mp hp with h | h
            · exact absurd h hnp
            · simpa using h
          subst hpp
          exact foldl_insertIfAbsent_mem_id _ _ item hitem hid
        · rw [if_neg hbreak] at hp ⊢
          by_cases hpst : p ∈ (st.fetched ++ [page])
          · have hpp : p = page := by
              rcases List.mem_append.mp hpst with h | h
              · exact absurd h hnp
              · simpa using h
            subst hpp
            exact rangeLoopAux_ids_mono site stop fuel _ _ _
              (foldl_insertIfAbsent_mem_id _ _ item hitem hid)
          · exact ih (page + 1) _ p hp hpst item hitem hid

/-! ### Properties of the pagination merge map -/

/-- All pairs of an association map carry the content key of their value. -/
def pairsCoherent (m : List (String × Record)) : Prop :=
  ∀ p ∈ m, p.1 = recordKey p.2

/-- A key is in the map iff `mapHas` says so. -/
theorem mapHas_iff (m : List (String × Record)) (k : String) :
    mapHas m k = true ↔ k ∈ m.map Prod.fst := by
  unfold mapHas
  rw [List.any_eq_true]
  constructor
  · rintro ⟨p, hp, hpk⟩
    exact List.mem_map.mpr ⟨p, hp, by simpa using hpk⟩
  · rintro hk
    rcases List.mem_map.mp hk with ⟨p, hp, hpk⟩
    exact ⟨p, hp, by simpa using hpk⟩

/-- Setting a present key leaves the key list unchanged. -/
theorem mapSet_keys_of_mem (m : List (String × Record)) (k : String) (v : Record)
    (h : (m.any fun p => p.1 = k) = true) :
    (mapSet m k v).map Prod.fst = m.map Prod.fst := by
  rw [mapSet, if_pos h, List.map_map]
  apply List.map_congr_left
  intro p _
  by_cases hp : p.1 = k <;> simp [hp]

/-- Setting an absent key appends it. -/
theorem mapSet_keys_of_not_mem (m : List (String × Record)) (k : String) (v : Record)
    (h : ¬ (m.any fun p => p.1 = k) = true) :
    (mapSet m k v).map Prod.fst = m.map Prod.fst ++ [k] := by
  rw [mapSet, if_neg h, List.map_append]
  rfl

/-- `mapSet` preserves key distinctness. -/
theorem mapSet_keys_nodup (m : List (String × Record)) (k : String) (v : Record)
    (h : (m.map Prod.fst).Nodup) : ((mapSet m k v).map Prod.fst).Nodup := by
  by_cases hk : (m.any fun p => p.1 = k) = true
  · rw [mapSet_keys_of_mem m k v hk]; exact h
  · rw [mapSet_keys_of_not_mem m k v hk]
    refine List.Nodup.append h (by simp) ?_
    intro i hi hj
    simp only [List.mem_singleton] at hj
    subst hj
    rcases List.mem_map.mp hi with ⟨p, hp, hpk⟩
    exact hk (List.any_eq_true.mpr ⟨p, hp, by simp [hpk]⟩)

/-- `mapSet` keeps keys that were already present. -/
theorem mapSet_keys_mono (m : List (String × Record)) (k : String) (v : Record)
    (i : String) (hi : i ∈ m.map Prod.fst) : i ∈ (mapSet m k v).map Prod.fst := by
  by_cases hk : (m.any fun p => p.1 = k) = true
  · rw [mapSet_keys_of_mem m k v hk]; exact hi
  · rw [mapSet_keys_of_not_mem m k v hk]; exact List.mem_append.mpr (Or.inl hi)

/-- `mapSet` with a coherent pair preserves coherence. -/
theorem mapSet_coherent (m : List (String × Record)) (k : String) (v : Record)
    (hm : pairsCoherent m) (hv : k = recordKey v) : pairsCoherent (mapSet m k v) := by
  intro p hp
  by_cases hk : (m.any fun q => q.1 = k) = true
  · rw [mapSet, if_pos hk] at hp
    rcases List.mem_map.mp hp with ⟨q, hq, hqp⟩
    by_cases hq1 : q.1 = k
    · rw [if_pos hq1] at hqp; subst hqp; exact hv
    · rw [if_neg hq1] at hqp; subst hqp; exact hm q hq
  · rw [mapSet, if_neg hk] at hp
    rcases List.mem_append.mp hp with h | h
    · exact hm p h
    · simp only [List.mem_singleton] at h
      subst h
      exact hv

/-- The rebuilt map is coherent (all keys recomputed from values). -/
theorem rebuildMap_aux_coherent (l : List Record) :
    ∀ m, pairsCoherent m →
      pairsCoherent (l.foldl (fun m item => mapSet m (recordKey item) item) m) := by
  induction l with
  | nil => intro m hm; exact hm
  | cons hd tl ih =>
    intro m hm
    exact ih _ (mapSet_coherent m (recordKey hd) hd hm rfl)

/-- The rebuilt map has pairwise distinct keys. -/
theorem rebuildMap_aux_nodup (l : List Record) :
    ∀ m, (m.map Prod.fst).Nodup →
      ((l.foldl (fun m item => mapSet m (recordKey item) item) m).map Prod.fst).Nodup := by
  induction l with
  | nil => intro m hm; exact hm
  | cons hd tl ih =>
    intro m hm
    exact ih _ (mapSet_keys_nodup m (recordKey hd) hd hm)

/-- `addIncoming` preserves coherence when the item's id is its content key. -/
theorem addIncoming_coherent (m : List (String × Record)) (item : ScrapedItem)
    (hm : pairsCoherent m) (hg : goodItem item) : pairsCoherent (addIncoming m item) := by
  unfold addIncoming
  split
  · exact mapSet_coherent m item.id (stripId item) hm hg
  · exact hm

/-- `addIncoming` preserves key distinctness. -/
theorem addIncoming_keys_nodup (m : List (String × Record)) (item : ScrapedItem)
    (h : (m.map Prod.fst).Nodup) : ((addIncoming m item).map Prod.fst).Nodup := by
  unfold addIncoming
  split
  · exact mapSet_keys_nodup m item.id (stripId item) h
  · exact h

/-- `addIncoming` keeps keys that were already present. -/
theorem addIncoming_keys_mono (m : List (String × Record)) (item : ScrapedItem)
    (i : String) (hi : i ∈ m.map Prod.fst) : i ∈ (addIncoming m item).map Prod.fst := by
  unfold addIncoming
  split
  · exact mapSet_keys_mono m item.id (stripId item) i hi
  · exact hi

/-- The incoming fold preserves coherence. -/
theorem foldl_addIncoming_coherent (l : List ScrapedItem) :
    ∀ m, pairsCoherent m → (∀ item ∈ l, goodItem item) →
      pairsCoherent (l.foldl addIncoming m) := by
  induction l with
  | nil => intro m hm _; exact hm
  | cons hd tl ih =>
    intro m hm hl
    exact ih _ (addIncoming_coherent m hd hm (hl hd (by simp)))
      (fun item hi => hl item (by simp [hi]))

/-- The incoming fold preserves key distinctness. -/
theorem foldl_addIncoming_nodup (l : List ScrapedItem) :
    ∀ m, (m.map Prod.fst).Nodup → ((l.foldl addIncoming m).map Prod.fst).Nodup := by
  induction l with
  | nil => intro m hm; exact hm
  | cons hd tl ih =>
    intro m hm
    exact ih _ (addIncoming_keys_nodup m hd hm)

/-- The incoming fold keeps keys that were already present. -/
theorem foldl_addIncoming_keys_mono (l : List ScrapedItem) :
    ∀ m i, i ∈ m.map Prod.fst → i ∈ (l.foldl addIncoming m).map Prod.fst := by
  induction l with
  | nil => intro m i hi; exact hi
  | cons hd tl ih =>
    intro m i hi
    exact ih _ i (addIncoming_keys_mono m hd i hi)

/-- After the incoming fold, every incoming item with a truthy id has its
key in the map. -/
theorem foldl_addIncoming_mem_key (l : List ScrapedItem) :
    ∀ m, ∀ item ∈ l, item.id ≠ "" → item.id ∈ (l.foldl addIncoming m).map Prod.fst := by
  induction l with
  | nil => intro m item h; cases h
  | cons hd tl ih =>
    intro m item hmem hid
    rcases List.mem_cons.mp hmem with heq | htl
    · subst heq
      refine foldl_addIncoming_keys_mono tl _ item.id ?_
      unfold addIncoming
      by_cases hk : mapHas m item.id = true
      · have : item.id ∈ m.map Prod.fst := (mapHas_iff m item.id).mp hk
        split
        · exact mapSet_keys_mono m item.id (stripId item) item.id this
        · exact this
      · rw [if_pos ⟨hid, hk⟩, mapSet_keys_of_not_mem]
        · exact List.mem_append.mpr (Or.inr (by simp))
        · intro hany
          rcases List.any_eq_true.mp hany with ⟨p, hp, hpk⟩
          exact hk ((mapHas_iff m item.id).mpr (List.mem_map.mpr ⟨p, hp, by simpa using hpk⟩))
    · exact ih _ item htl hid

/-- Folding records with pairwise-fresh distinct keys appends their pairs. -/
theorem foldl_mapSet_fresh (l : List Record) :
    ∀ (acc : List (String × Record)), (l.map recordKey).Nodup →
      (∀ r ∈ l, recordKey r ∉ acc.map Prod.fst) →
      l.foldl (fun m item => mapSet m (recordKey item) item) acc
        = acc ++ l.map fun r => (recordKey r, r) := by
  induction l with
  | nil => intro acc _ _; simp
  | cons hd tl ih =>
    intro acc hnd hfresh
    simp only [List.foldl_cons]
    have hnot : ¬ (acc.any fun p => p.1 = recordKey hd) = true := by
      intro hany
      rcases List.any_eq_true.mp hany with ⟨p, hp, hpk⟩
      exact hfresh hd (by simp) (List.mem_map.mpr ⟨p, hp, by simpa using hpk⟩)
    rw [show mapSet acc (recordKey hd) hd = acc ++ [(recordKey hd, hd)] from by
      rw [mapSet, if_neg hnot]]
    rw [List.map_cons] at hnd
    have hnd' := List.nodup_cons.mp hnd
    rw [ih (acc ++ [(recordKey hd, hd)]) hnd'.2 ?_]
    · simp
    · intro r hr
      rw [List.map_append]
      simp only [List.mem_append, not_or]
      refine ⟨hfresh r (by simp [hr]), ?_⟩
      simp only [List.map_cons, List.map_nil, List.mem_singleton]
      intro hcontra
      exact hnd'.1 (hcontra ▸ List.mem_map.mpr ⟨r, hr, rfl⟩)

/-- Rebuilding a map from the values of a coherent, key-distinct map gives
back the same map. -/
theorem rebuildMap_values (m : List (String × Record)) (hco : pairsCoherent m)
    (hnd : (m.map Prod.fst).Nodup) : rebuildMap (m.map Prod.snd) = m := by
  unfold rebuildMap
  have hkeys : (m.map Prod.snd).map recordKey = m.map Prod.fst := by
    rw [List.map_map]
    exact List.map_congr_left fun p hp => (hco p hp).symm
  rw [foldl_mapSet_fresh (m.map Prod.snd) [] (by rw [hkeys]; exact hnd) (by simp)]
  simp only [List.nil_append, List.map_map]
  have : m.map ((fun r => (recordKey r, r)) ∘ Prod.snd) = m.map id :=
    List.map_congr_left fun p hp => by
      simp only [Function.comp_apply, id]
      rw [← hco p hp]
  rw [this, List.map_id]

/-- Incoming items whose keys are all already present leave the map as is. -/
theorem foldl_addIncoming_of_has (l : List ScrapedItem) :
    ∀ (m : List (String × Record)),
      (∀ item ∈ l, item.id ≠ "" → mapHas m item.id = true) →
      l.foldl addIncoming m = m := by
  induction l with
  | nil => intro m _; rfl
  | cons hd tl ih =>
    intro m hall
    simp only [List.foldl_cons]
    have hstep : addIncoming m hd = m := by
      unfold addIncoming
      rw [if_neg]
      rintro ⟨h1, h2⟩
      exact h2 (hall hd (by simp) h1)
    rw [hstep]
    exact ih m fun item hm hid => hall item (by simp [hm]) hid

/-- C9. The deduplicating merge is idempotent: merging the same page's
records into an aggregate twice yields exactly the same aggregate (same
elements, same first-seen order) as merging once. The incoming items are
required to obey the id discipline `scrapeBreederPage` establishes (the
`id` is the content key of the fields), which is what makes the rebuilt
`existingItems` map agree with the incoming ids. -/
theorem c9_merge_idempotent (existing : List Record) (incoming : List ScrapedItem)
    (hinc : ∀ item ∈ incoming, goodItem item) :
    mergeDedup (mergeDedup existing incoming) incoming = mergeDedup existing incoming := by
  unfold mergeDedup
  have hco0 : pairsCoherent (rebuildMap existing) :=
    rebuildMap_aux_coherent existing [] (by intro p hp; cases hp)
  have hnd0 : ((rebuildMap existing).map Prod.fst).Nodup :=
    rebuildMap_aux_nodup existing [] (by simp)
  have hco1 : pairsCoherent (incoming.foldl addIncoming (rebuildMap existing)) :=
    foldl_addIncoming_coherent incoming _ hco0 hinc
  have hnd1 : ((incoming.foldl addIncoming (rebuildMap existing)).map Prod.fst).Nodup :=
    foldl_addIncoming_nodup incoming _ hnd0
  rw [rebuildMap_values _ hco1 hnd1]
  rw [foldl_addIncoming_of_has incoming _ ?_]
  intro item hm hid
  exact (mapHas_iff _ _).mpr (foldl_addIncoming_mem_key incoming _ item hm hid)

/-- Distinct mapped keys give pairwise-distinct keys. -/
theorem pairwise_key_of_map_nodup (l : List Record) (h : (l.map recordKey).Nodup) :
    List.Pairwise (fun a b => recordKey a ≠ recordKey b) l := by
  rw [List.Nodup, List.pairwise_map] at h
  exact h

/-- The values of a coherent, key-distinct map have pairwise-distinct
content keys. -/
theorem values_pairwise_key (m : List (String × Record)) (hco : pairsCoherent m)
    (hnd : (m.map Prod.fst).Nodup) :
    List.Pairwise (fun a b => recordKey a ≠ recordKey b) (m.map Prod.snd) := by
  apply pairwise_key_of_map_nodup
  have hkeys : (m.map Prod.snd).map recordKey = m.map Prod.fst := by
    rw [List.map_map]
    exact List.map_congr_left fun p hp => (hco p hp).symm
  rw [hkeys]
  exact hnd

/-- The pagination merge always produces pairwise-distinct content keys,
for any existing aggregate, provided the incoming items obey the id
discipline. -/
theorem mergeDedup_pairwise (existing : List Record) (incoming : List ScrapedItem)
    (hinc : ∀ item ∈ incoming, goodItem item) :
    List.Pairwise (fun a b => recordKey a ≠ recordKey b) (mergeDedup existing incoming) := by
  unfold mergeDedup
  apply values_pairwise_key
  · exact foldl_addIncoming_coherent incoming _
      (rebuildMap_aux_coherent existing [] (by intro p hp; cases hp)) hinc
  · exact foldl_addIncoming_nodup incoming _ (rebuildMap_aux_nodup existing [] (by simp))

/-! ### Branch-level characterizations -/

/-- Every item returned by `scrapeBreederPage` has a nonempty id. -/
theorem scrapeBreederPage_id_ne (site : Int → FetchResult) (p : Int) :
    ∀ item ∈ (scrapeBreederPage site p).data, item.id ≠ "" := by
  intro item hmem
  unfold scrapeBreederPage at hmem
  cases hsp : site p <;> rw [hsp] at hmem
  case ok html => exact extractBreeders_id_ne html item hmem
  all_goals simp at hmem

/-- Range dispatch: the branch guard selects the page-range branch. -/
theorem dispatchBranch_range (site : Int → FetchResult) (req : ScrapeRequest)
    (sess : Session) (pr : PageRangeReq) (h : rangeRequested req = some pr) :
    dispatchBranch site req sess = pageRangeBranch site pr sess := by
  unfold dispatchBranch
  rw [h]

/-- Pagination dispatch. -/
theorem dispatchBranch_pagination (site : Int → FetchResult) (req : ScrapeRequest)
    (sess : Session) (h : rangeRequested req = none) (hp : req.pagination = true) :
    dispatchBranch site req sess = paginationBranch site sess := by
  unfold dispatchBranch
  rw [h, if_pos hp]

/-- Initial dispatch. -/
theorem dispatchBranch_initial (site : Int → FetchResult) (req : ScrapeRequest)
    (sess : Session) (h : rangeRequested req = none) (hp : req.pagination = false) :
    dispatchBranch site req sess = initialBranch site sess := by
  unfold dispatchBranch
  rw [h]
  simp [hp]

/-- The pagination branch on an empty next page. -/
theorem paginationBranch_empty (site : Int → FetchResult) (sess : Session)
    (h : (scrapeBreederPage site (sess.currentPage + 1)).data = []) :
    paginationBranch site sess =
      { out := .error (s!"No more data found on page {sess.currentPage + 1}. You might have reached the end of the results."),
        sess := sess, fetched := [sess.currentPage + 1] } := by
  unfold paginationBranch
  rw [if_pos h]

/-- The pagination branch on a nonempty next page. -/
theorem paginationBranch_success (site : Int → FetchResult) (sess : Session)
    (h : ¬ (scrapeBreederPage site (sess.currentPage + 1)).data = []) :
    paginationBranch site sess =
      { out := .ok (match sess.scrapedData with
          | some existing => mergeDedup existing (scrapeBreederPage site (sess.currentPage + 1)).data
          | none => (scrapeBreederPage site (sess.currentPage + 1)).data.map stripId),
        sess := { sess with currentPage := sess.currentPage + 1 },
        fetched := [sess.currentPage + 1] } := by
  unfold paginationBranch
  rw [if_neg h]

/-- The initial branch on an empty page 1. -/
theorem initialBranch_empty (site : Int → FetchResult) (sess : Session)
    (h : (scrapeBreederPage site 1).data = []) :
    initialBranch site sess =
      { out := .error "No breeder information found on the provided URL. Please check the URL and try again.",
        sess := sess, fetched := [1] } := by
  unfold initialBranch
  rw [if_pos h]

/-- The initial branch on a nonempty page 1. -/
theorem initialBranch_success (site : Int → FetchResult) (sess : Session)
    (h : ¬ (scrapeBreederPage site 1).data = []) :
    initialBranch site sess =
      { out := .ok ((scrapeBreederPage site 1).data.map stripId),
        sess := { sess with currentPage := 1 }, fetched := [1] } := by
  unfold initialBranch
  rw [if_neg h]

/-- The pagination branch always fetches exactly the next page. -/
theorem paginationBranch_fetched (site : Int → FetchResult) (sess : Session) :
    (paginationBranch site sess).fetched = [sess.currentPage + 1] := by
  by_cases h : (scrapeBreederPage site (sess.currentPage + 1)).data = []
  · rw [paginationBranch_empty site sess h]
  · rw [paginationBranch_success site sess h]

/-- The initial branch always fetches exactly page 1. -/
theorem initialBranch_fetched (site : Int → FetchResult) (sess : Session) :
    (initialBranch site sess).fetched = [1] := by
  by_cases h : (scrapeBreederPage site 1).data = []
  · rw [initialBranch_empty site sess h]
  · rw [initialBranch_success site sess h]

/-- Membership in a consecutive run. -/
theorem mem_consecutiveInts (start : Int) (n : Nat) (p : Int) :
    p ∈ consecutiveInts start n ↔ ∃ i : Nat, i < n ∧ p = start + (i : Int) := by
  unfold consecutiveInts
  simp only [List.mem_map, List.mem_range]
  constructor
  · rintro ⟨i, hi, rfl⟩
    exact ⟨i, hi, rfl⟩
  · rintro ⟨i, hi, rfl⟩
    exact ⟨i, hi, rfl⟩

/-- Length of a consecutive run. -/
theorem length_consecutiveInts (start : Int) (n : Nat) :
    (consecutiveInts start n).length = n := by
  unfold consecutiveInts
  simp

/-- `slice(0, n)` yields a sublist, so pairwise properties persist. -/
theorem jsSlice0_pairwise {α : Type} (R : α → α → Prop) (l : List α) (n : Int)
    (h : List.Pairwise R l) : List.Pairwise R (jsSlice0 l n) := by
  unfold jsSlice0
  split
  · exact List.Pairwise.sublist (List.take_sublist _ _) h
  · exact List.Pairwise.sublist (List.take_sublist _ _) h

/-- The results of the page-range branch have pairwise distinct content
keys (the results map inserts only absent ids, and ids are content keys). -/
theorem pageRangeBranch_pairwise (site : Int → FetchResult) (pr : PageRangeReq)
    (sess : Session) (R : List Record)
    (h : (pageRangeBranch site pr sess).out = .ok R) :
    List.Pairwise (fun r₁ r₂ => recordKey r₁ ≠ recordKey r₂) R := by
  have hR : R = rangeResults site pr := by
    have hout : (pageRangeBranch site pr sess).out = .ok (rangeResults site pr) := rfl
    rw [hout] at h
    exact (Except.ok.inj h).symm
  subst hR
  have hgood : ∀ x ∈ (rangeScan site pr).resultsMap, goodItem x := by
    unfold rangeScan rangeLoop
    exact rangeLoopAux_resultsMap_good site _ _ _ _ (by intro x hx; cases hx)
  have hnd : ((rangeScan site pr).resultsMap.map ScrapedItem.id).Nodup := by
    unfold rangeScan rangeLoop
    exact rangeLoopAux_resultsMap_nodup site _ _ _ _ (by simp)
  have hpw : List.Pairwise (fun r₁ r₂ => recordKey r₁ ≠ recordKey r₂)
      ((rangeScan site pr).resultsMap.map stripId) := by
    apply pairwise_key_of_map_nodup
    have hkeys : ((rangeScan site pr).resultsMap.map stripId).map recordKey
        = (rangeScan site pr).resultsMap.map ScrapedItem.id := by
      rw [List.map_map]
      exact List.map_congr_left fun x hx => ((hgood x hx).symm)
    rw [hkeys]
    exact hnd
  exact jsSlice0_pairwise _ _ _ hpw

/-- The initial state of the page-range loop
(`resultsMap = new Map()`, `totalEntries = 0`, `entriesPerPage = 25`). -/
def initialRangeState : RangeState :=
  { resultsMap := [], totalEntries := 0, entriesPerPage := some 25, fetched := [] }

/-- The page-range branch fetches exactly the loop's pages. -/
theorem pageRangeBranch_fetched (site : Int → FetchResult) (pr : PageRangeReq)
    (sess : Session) :
    (pageRangeBranch site pr sess).fetched = (rangeScan site pr).fetched := rfl

/-- The whole range scan's fetched pages: a consecutive run from the clamped
start, bounded by the clamped stop, with only the last page possibly empty. -/
theorem rangeScan_fetched_spec (site : Int → FetchResult) (pr : PageRangeReq) :
    ∃ n : Nat,
      (rangeScan site pr).fetched = consecutiveInts (effStart pr) n ∧
      n ≤ (effStop pr + 1 - effStart pr).toNat ∧
      (∀ i : Nat, i < n → effStart pr + (i : Int) ≤ effStop pr) ∧
      (∀ i : Nat, i + 1 < n → (scrapeBreederPage site (effStart pr + (i : Int))).data ≠ []) := by
  obtain ⟨n, hfe, hle, hbnd, hne⟩ := rangeLoopAux_fetched_spec site (effStop pr)
    ((effStop pr + 1 - effStart pr).toNat) (effStart pr)
    { resultsMap := [], totalEntries := 0, entriesPerPage := some 25, fetched := [] }
  exact ⟨n, by simpa using hfe, hle, hbnd, hne⟩

/-! ### Concrete fixtures for counterexamples and witnesses -/

/-- `goodItem` is decidable (it is a string equation). -/
instance (item : ScrapedItem) : Decidable (goodItem item) := by
  unfold goodItem
  infer_instance

/-- A page listing the same breeder twice (plus a header row). -/
def htmlDup : Html :=
  { tableRows := [["Name", "Phone", "Location"], ["Jo", "555", "NY"], ["Jo", "555", "NY"]],
    totalEntriesMarker := some 2 }

/-- A site whose page 1 is `htmlDup` and whose other pages fail. -/
def siteDup : Int → FetchResult := fun p => if p = 1 then .ok htmlDup else .httpError

/-- Page `n` of a site with two distinct breeders per page. -/
def htmlPage (n : Nat) : Html :=
  { tableRows := [["h", "h", "h"], [s!"A{n}", "1", "X"], [s!"B{n}", "2", "Y"]],
    totalEntriesMarker := some 200 }

/-- A site with distinct data on pages 1–7; other pages fail. -/
def siteSeven : Int → FetchResult := fun p =>
  if 1 ≤ p ∧ p ≤ 7 then .ok (htmlPage p.toNat) else .httpError

/-- A site whose every page parses to an empty table. -/
def siteBlankPages : Int → FetchResult := fun _ => .ok { tableRows := [], totalEntriesMarker := none }

/-- A site whose every fetch returns a non-ok HTTP status. -/
def siteAllHttpError : Int → FetchResult := fun _ => .httpError

/-- A site with the duplicate page on pages 1 and 2. -/
def siteTwoPages : Int → FetchResult := fun p => if p = 1 ∨ p = 2 then .ok htmlDup else .httpError

/-- The record both duplicate rows denote. -/
def recJo : Record := { name := "Jo", phone := "555", location := "NY" }

/-- A record stored in the durable cache, different from any page content. -/
def recCached : Record := { name := "Cached", phone := "0", location := "ZZ" }

/-- An initial request. -/
def reqInitial : ScrapeRequest := { url := some "u", pagination := false, pageRange := none }

/-- A pagination request. -/
def reqPagination : ScrapeRequest := { url := none, pagination := true, pageRange := none }

/-- A page-range request with `start = 0` (falsy). -/
def reqRangeZero : ScrapeRequest :=
  { url := some "u", pagination := false, pageRange := some { start := 0, stop := 100 } }

/-- A page-range request `1..100`. -/
def reqRangeBig : ScrapeRequest :=
  { url := some "u", pagination := false, pageRange := some { start := 1, stop := 100 } }

/-- A page-range request `1..3`. -/
def reqRange13 : ScrapeRequest :=
  { url := some "u", pagination := false, pageRange := some { start := 1, stop := 3 } }

/-- A page-range request `3..3`. -/
def reqRange33 : ScrapeRequest :=
  { url := some "u", pagination := false, pageRange := some { start := 3, stop := 3 } }

/-- A session that has scraped page 1 of `"u"` and holds one record. -/
def sessAtPage1 : Session :=
  { messages := [], scrapedData := some [recJo], currentPage := 1, lastUrl := some "u" }

/-- The items extracted from the duplicate page. -/
def pageItemsJo : List ScrapedItem := extractBreeders htmlDup

/-- The six records of pages 1–3 of `siteSeven`. -/
def recsPages13 : List Record :=
  [{ name := "A1", phone := "1", location := "X" }, { name := "B1", phone := "2", location := "Y" },
   { name := "A2", phone := "1", location := "X" }, { name := "B2", phone := "2", location := "Y" },
   { name := "A3", phone := "1", location := "X" }, { name := "B3", phone := "2", location := "Y" }]

/-! ### The claims -/

/-- C1, counterexample. The claim says every successful scrape returns a
list without duplicate `RecordKey`s, in particular a record appearing twice
within a single page yields one entry. The Initial branch performs no
deduplication at all: scraping a page that lists `Jo/555/NY` twice succeeds
and returns both copies. -/
theorem c1_counterexample :
    (scrapeHandler siteDup none true reqInitial freshSession).outcome
      = .success (successResponse reqInitial 1 [recJo, recJo]) ∧
    ¬ List.Pairwise (fun r₁ r₂ => recordKey r₁ ≠ recordKey r₂)
        (outcomeResults (scrapeHandler siteDup none true reqInitial freshSession).outcome) := by
  constructor <;> decide

/-- C1, amended. For PageRange requests, and for NextPage requests on a
session that already holds a scraped aggregate, the returned result list
contains no two records with the same `RecordKey`; Initial results (and
NextPage results on a session without prior data) are the raw page records
and may contain within-page duplicates. -/
theorem c1_dedup_amended (site : Int → FetchResult) (c : Option (List Record)) (b : Bool)
    (req : ScrapeRequest) (sess : Session) (resp : ScrapeResponse)
    (hout : (scrapeHandler site c b req sess).outcome = .success resp)
    (hbr : (∃ pr, rangeRequested req = some pr) ∨
      (rangeRequested req = none ∧ req.pagination = true ∧ sess.scrapedData.isSome)) :
    List.Pairwise (fun r₁ r₂ => recordKey r₁ ≠ recordKey r₂) resp.results := by
  obtain ⟨hT, hok⟩ := scrapeHandler_success_inv site c b req sess resp hout
  rcases hbr with ⟨pr, hpr⟩ | ⟨hnone, hpag, hsome⟩
  · rw [dispatchBranch_range site req _ pr hpr] at hok
    exact pageRangeBranch_pairwise site pr _ resp.results hok
  · rw [dispatchBranch_pagination site req _ hnone hpag] at hok
    obtain ⟨d, hd⟩ := Option.isSome_iff_exists.mp hsome
    by_cases hdata : (scrapeBreederPage site (sess.currentPage + 1)).data = []
    · rw [paginationBranch_empty site _ (by exact hdata)] at hok
      simp at hok
    · rw [paginationBranch_success site _ (by exact hdata)] at hok
      rw [show ({ sess with lastUrl := resolvedUrl req sess } : Session).scrapedData
          = some d from hd] at hok
      simp only [Except.ok.injEq] at hok
      rw [← hok]
      exact mergeDedup_pairwise d _ (scrapeBreederPage_good site _)

/-- C1, witness for the amended theorem at a concrete page-range request. -/
theorem c1_dedup_amended_witness :
    List.Pairwise (fun r₁ r₂ => recordKey r₁ ≠ recordKey r₂)
      (successResponse reqRange13 3 recsPages13).results :=
  c1_dedup_amended siteSeven none true reqRange13 freshSession
    (successResponse reqRange13 3 recsPages13) (by decide)
    (Or.inl ⟨{ start := 1, stop := 3 }, by decide⟩)

/-- C2. A NextPage request that succeeds advances `currentPage` by exactly
one; a NextPage request whose fetched page yields zero records returns the
404 "no more data" error and leaves `currentPage` unchanged. -/
theorem c2_pagination_cursor (site : Int → FetchResult) (c : Option (List Record))
    (b : Bool) (req : ScrapeRequest) (sess : Session)
    (hrange : rangeRequested req = none) (hpag : req.pagination = true)
    (hurl : strTruthy (resolvedUrl req sess) = true) :
    ((scrapeBreederPage site (sess.currentPage + 1)).data = [] →
      (scrapeHandler site c b req sess).outcome =
        .notFound (s!"No more data found on page {sess.currentPage + 1}. You might have reached the end of the results.") ∧
      (scrapeHandler site c b req sess).sess.currentPage = sess.currentPage) ∧
    (¬ (scrapeBreederPage site (sess.currentPage + 1)).data = [] →
      (∃ resp, (scrapeHandler site c b req sess).outcome = .success resp) ∧
      (scrapeHandler site c b req sess).sess.currentPage = sess.currentPage + 1) := by
  constructor
  · intro hdata
    have hbr : (dispatchBranch site req { sess with lastUrl := resolvedUrl req sess }).out
        = .error (s!"No more data found on page {sess.currentPage + 1}. You might have reached the end of the results.") := by
      rw [dispatchBranch_pagination site req _ hrange hpag,
          paginationBranch_empty site _ (by exact hdata)]
    constructor
    · rw [scrapeHandler_notFound site c b req sess _ hurl hbr]
    · rw [scrapeHandler_notFound site c b req sess _ hurl hbr,
          dispatchBranch_pagination site req _ hrange hpag,
          paginationBranch_empty site _ (by exact hdata)]
  · intro hdata
    have hbr : (dispatchBranch site req { sess with lastUrl := resolvedUrl req sess }).out
        = .ok (match sess.scrapedData with
            | some existing => mergeDedup existing (scrapeBreederPage site (sess.currentPage + 1)).data
            | none => (scrapeBreederPage site (sess.currentPage + 1)).data.map stripId) := by
      rw [dispatchBranch_pagination site req _ hrange hpag,
          paginationBranch_success site _ (by exact hdata)]
    constructor
    · exact ⟨_, by rw [scrapeHandler_ok site c b req sess _ hurl hbr]⟩
    · rw [scrapeHandler_ok site c b req sess _ hurl hbr,
          dispatchBranch_pagination site req _ hrange hpag,
          paginationBranch_success site _ (by exact hdata)]

/-- C2, witness: a concrete successful NextPage motion from page 1 to 2. -/
theorem c2_pagination_cursor_witness :
    (∃ resp, (scrapeHandler siteTwoPages none true reqPagination sessAtPage1).outcome
        = .success resp) ∧
    (scrapeHandler siteTwoPages none true reqPagination sessAtPage1).sess.currentPage
      = sessAtPage1.currentPage + 1 :=
  (c2_pagination_cursor siteTwoPages none true reqPagination sessAtPage1
    (by decide) rfl (by decide)).2 (by decide)

/-- C3, counterexample. The claim says a PageRange request with
`start = 0, end = 100` is clamped to the effective range `[1, 6]`. In the
code the dispatch guard `pageRange.start && pageRange.end` treats `0` as
falsy, so such a request is not handled by the range branch at all: only
page 1 is fetched, while the same request with `start = 1` fetches pages
1 through 6. -/
theorem c3_counterexample :
    (scrapeHandler siteSeven none true reqRangeZero freshSession).fetched = [1] ∧
    (scrapeHandler siteSeven none true reqRangeBig freshSession).fetched
      = [1, 2, 3, 4, 5, 6] := by
  constructor <;> decide

/-- C3, amended. For a PageRange request whose `start` and `end` are both
nonzero (so the range guard accepts it), the pages processed lie within
`[max(1, start), min(max(1, start) + 5, end)]` and at most 6 pages are
fetched; a request with `start = 0` is not treated as a PageRange request
at all. -/
theorem c3_range_clamp_amended (site : Int → FetchResult) (c : Option (List Record))
    (b : Bool) (req : ScrapeRequest) (sess : Session) (pr : PageRangeReq)
    (hpr : rangeRequested req = some pr)
    (hurl : strTruthy (resolvedUrl req sess) = true) :
    (scrapeHandler site c b req sess).fetched.length ≤ 6 ∧
    ∀ p ∈ (scrapeHandler site c b req sess).fetched,
      effStart pr ≤ p ∧ p ≤ effStop pr := by
  rw [scrapeHandler_fetched site c b req sess hurl,
      dispatchBranch_range site req _ pr hpr, pageRangeBranch_fetched]
  obtain ⟨n, hfe, hn, hbnd, _⟩ := rangeScan_fetched_spec site pr
  rw [hfe]
  constructor
  · rw [length_consecutiveInts]
    have h5 : effStop pr ≤ effStart pr + 5 := min_le_left _ _
    omega
  · intro p hp
    rw [mem_consecutiveInts] at hp
    obtain ⟨i, hi, rfl⟩ := hp
    exact ⟨by omega, hbnd i hi⟩

/-- C3, witness for the amended theorem: `1..100` clamps to six pages. -/
theorem c3_range_clamp_amended_witness :
    (scrapeHandler siteSeven none true reqRangeBig freshSession).fetched.length ≤ 6 ∧
    ∀ p ∈ (scrapeHandler siteSeven none true reqRangeBig freshSession).fetched,
      effStart { start := 1, stop := 100 } ≤ p ∧ p ≤ effStop { start := 1, stop := 100 } :=
  c3_range_clamp_amended siteSeven none true reqRangeBig freshSession
    { start := 1, stop := 100 } (by decide) (by decide)

/-- C4, counterexample. The claim says an Initial request first consults the
Durable Cache and, on a hit, returns the stored records without any network
fetch. The code never reads the `scraped_content` table: with a cache row
present for the URL, page 1 is still fetched (one network fetch) and the
response carries the freshly scraped records, not the stored ones. -/
theorem c4_counterexample :
    (scrapeHandler siteDup (some [recCached]) true reqInitial freshSession).fetched = [1] ∧
    outcomeResults (scrapeHandler siteDup (some [recCached]) true reqInitial
        freshSession).outcome ≠ [recCached] := by
  constructor <;> decide

/-- C4, amended. The Durable Cache is write-only: an Initial request behaves
identically for every possible cache content and always performs exactly one
network fetch, of page 1. -/
theorem c4_cache_write_only_amended (site : Int → FetchResult)
    (cacheA cacheB : Option (List Record)) (b : Bool) (req : ScrapeRequest) (sess : Session)
    (hrange : rangeRequested req = none) (hpag : req.pagination = false)
    (hurl : strTruthy (resolvedUrl req sess) = true) :
    scrapeHandler site cacheA b req sess = scrapeHandler site cacheB b req sess ∧
    (scrapeHandler site cacheA b req sess).fetched = [1] := by
  refine ⟨rfl, ?_⟩
  rw [scrapeHandler_fetched site cacheA b req sess hurl,
      dispatchBranch_initial site req _ hrange hpag, initialBranch_fetched]

/-- C4, witness for the amended theorem at a concrete populated cache. -/
theorem c4_cache_write_only_amended_witness :
    scrapeHandler siteDup (some [recCached]) true reqInitial freshSession
      = scrapeHandler siteDup none true reqInitial freshSession ∧
    (scrapeHandler siteDup (some [recCached]) true reqInitial freshSession).fetched = [1] :=
  c4_cache_write_only_amended siteDup (some [recCached]) none true reqInitial freshSession
    (by decide) rfl (by decide)

/-- The first iteration of the loop fetches its page whenever the page is in
range and there is fuel. -/
theorem rangeLoopAux_fetched_mem_first (site : Int → FetchResult) (stop : Int)
    (fuel : Nat) (page : Int) (st : RangeState) (hf : 1 ≤ fuel) (hps : page ≤ stop) :
    page ∈ (rangeLoopAux site stop fuel page st).fetched := by
  obtain ⟨k, rfl⟩ : ∃ k, fuel = k + 1 := ⟨fuel - 1, by omega⟩
  simp only [rangeLoopAux]
  rw [if_neg (by omega : ¬ page > stop)]
  by_cases hempty : (scrapeBreederPage site page).data = []
  · rw [if_pos hempty]
    simp
  · rw [if_neg hempty]
    by_cases hbreak : ¬ (scrapeBreederPage site page).hasMorePages = true ∧ page < stop
    · rw [if_pos hbreak]
      simp
    · rw [if_neg hbreak]
      obtain ⟨n, hfe, _, _, _⟩ := rangeLoopAux_fetched_spec site stop k (page + 1) _
      rw [hfe]
      simp

/-- A nonempty effective range always network-fetches its first page. -/
theorem rangeScan_mem_first (site : Int → FetchResult) (pr : PageRangeReq)
    (h : effStart pr ≤ effStop pr) :
    effStart pr ∈ (rangeScan site pr).fetched := by
  exact rangeLoopAux_fetched_mem_first site (effStop pr) _ (effStart pr) _ (by omega) h

/-- C5, counterexample. The claim says a PageRange request covering a page
`p` whose records the session already holds performs zero additional network
fetches for `p`. There is no per-page cache in the code: a `3..3` range
request fetches page 3, and repeating the identical request on the resulting
session fetches page 3 again. -/
theorem c5_counterexample :
    (scrapeHandler siteSeven none true reqRange33 freshSession).fetched = [3] ∧
    (scrapeHandler siteSeven none true reqRange33
        (scrapeHandler siteSeven none true reqRange33 freshSession).sess).fetched = [3] := by
  constructor <;> decide

/-- C5, amended. Sessions keep no per-page cache: the pages a request
fetches do not depend on the session's previously scraped data at all, and
a PageRange request with a nonempty effective range always network-fetches
its first page anew. -/
theorem c5_no_page_cache_amended (site : Int → FetchResult) (c : Option (List Record))
    (b : Bool) (req : ScrapeRequest) (sess : Session) (d d' : Option (List Record))
    (pr : PageRangeReq) (hpr : rangeRequested req = some pr)
    (hurl : strTruthy (resolvedUrl req sess) = true)
    (hne : effStart pr ≤ effStop pr) :
    (scrapeHandler site c b req { sess with scrapedData := d }).fetched
      = (scrapeHandler site c b req { sess with scrapedData := d' }).fetched ∧
    effStart pr ∈ (scrapeHandler site c b req { sess with scrapedData := d }).fetched := by
  have hurlx : ∀ x : Option (List Record),
      strTruthy (resolvedUrl req { sess with scrapedData := x }) = true := fun _ => hurl
  have hf : ∀ x : Option (List Record),
      (scrapeHandler site c b req { sess with scrapedData := x }).fetched
        = (rangeScan site pr).fetched := by
    intro x
    rw [scrapeHandler_fetched site c b req _ (hurlx x),
        dispatchBranch_range site req _ pr hpr, pageRangeBranch_fetched]
  refine ⟨by rw [hf d, hf d'], ?_⟩
  rw [hf d]
  exact rangeScan_mem_first site pr hne

/-- C5, witness for the amended theorem at a concrete `3..3` request. -/
theorem c5_no_page_cache_amended_witness :
    (scrapeHandler siteSeven none true reqRange33
        { sessAtPage1 with scrapedData := some [recJo] }).fetched
      = (scrapeHandler siteSeven none true reqRange33
        { sessAtPage1 with scrapedData := none }).fetched ∧
    effStart { start := 3, stop := 3 } ∈ (scrapeHandler siteSeven none true reqRange33
        { sessAtPage1 with scrapedData := some [recJo] }).fetched :=
  c5_no_page_cache_amended siteSeven none true reqRange33 sessAtPage1
    (some [recJo]) none { start := 3, stop := 3 } (by decide) (by decide) (by decide)

/-- C6, counterexample. The claim says a PageRange request whose final
result set is empty returns the NotFound error. With every page empty, a
`1..3` range request stops at page 1 and returns a 200 success response
with an empty results list, not a 404. -/
theorem c6_counterexample :
    (scrapeHandler siteBlankPages none true reqRange13 freshSession).outcome
      = .success (successResponse reqRange13 3 []) := by
  decide

/-- C6, amended. In a PageRange request pages are processed in increasing
consecutive order from the clamped start; every fetched page except
possibly the last yielded records (the first empty page stops the loop);
every item of every fetched page stays represented in the deduplicated
results map; and the request always produces the success response built
from the (truncated) merged results — even when that result list is empty,
no NotFound error is produced. -/
theorem c6_range_early_stop_amended (site : Int → FetchResult) (c : Option (List Record))
    (b : Bool) (req : ScrapeRequest) (sess : Session) (pr : PageRangeReq)
    (hpr : rangeRequested req = some pr)
    (hurl : strTruthy (resolvedUrl req sess) = true) :
    (scrapeHandler site c b req sess).fetched
        = consecutiveInts (effStart pr) (scrapeHandler site c b req sess).fetched.length ∧
    (∀ i : Nat, i + 1 < (scrapeHandler site c b req sess).fetched.length →
        (scrapeBreederPage site (effStart pr + (i : Int))).data ≠ []) ∧
    (∀ p ∈ (scrapeHandler site c b req sess).fetched,
        ∀ item ∈ (scrapeBreederPage site p).data,
          item.id ∈ ((rangeScan site pr).resultsMap.map ScrapedItem.id)) ∧
    (scrapeHandler site c b req sess).outcome
        = .success (successResponse req (effStop pr) (rangeResults site pr)) := by
  have hfetch : (scrapeHandler site c b req sess).fetched = (rangeScan site pr).fetched := by
    rw [scrapeHandler_fetched site c b req sess hurl,
        dispatchBranch_range site req _ pr hpr, pageRangeBranch_fetched]
  obtain ⟨n, hfe, hnle, hbnd, hne⟩ := rangeScan_fetched_spec site pr
  refine ⟨?_, ?_, ?_, ?_⟩
  · rw [hfetch, hfe, length_consecutiveInts]
  · rw [hfetch, hfe, length_consecutiveInts]
    exact hne
  · intro p hp item hitem
    rw [hfetch] at hp
    have hp' : p ∈ (rangeLoopAux site (effStop pr) ((effStop pr + 1 - effStart pr).toNat)
        (effStart pr) initialRangeState).fetched := hp
    exact rangeLoopAux_persist site (effStop pr) _ (effStart pr) initialRangeState p hp'
      (by simp [initialRangeState]) item hitem (scrapeBreederPage_id_ne site p item hitem)
  · have hbr : (dispatchBranch site req { sess with lastUrl := resolvedUrl req sess }).out
        = .ok (rangeResults site pr) := by
      rw [dispatchBranch_range site req _ pr hpr]
      rfl
    rw [scrapeHandler_ok site c b req sess (rangeResults site pr) hurl hbr,
        dispatchBranch_range site req _ pr hpr]
    rfl

/-- C6, witness for the amended theorem at a concrete `1..3` request. -/
theorem c6_range_early_stop_amended_witness :
    (scrapeHandler siteSeven none true reqRange13 freshSession).fetched
        = consecutiveInts (effStart { start := 1, stop := 3 })
            (scrapeHandler siteSeven none true reqRange13 freshSession).fetched.length ∧
    (∀ i : Nat, i + 1 < (scrapeHandler siteSeven none true reqRange13 freshSession).fetched.length →
        (scrapeBreederPage siteSeven (effStart { start := 1, stop := 3 } + (i : Int))).data ≠ []) ∧
    (∀ p ∈ (scrapeHandler siteSeven none true reqRange13 freshSession).fetched,
        ∀ item ∈ (scrapeBreederPage siteSeven p).data,
          item.id ∈ ((rangeScan siteSeven { start := 1, stop := 3 }).resultsMap.map ScrapedItem.id)) ∧
    (scrapeHandler siteSeven none true reqRange13 freshSession).outcome
        = .success (successResponse reqRange13 (effStop { start := 1, stop := 3 })
            (rangeResults siteSeven { start := 1, stop := 3 })) :=
  c6_range_early_stop_amended siteSeven none true reqRange13 freshSession
    { start := 1, stop := 3 } (by decide) (by decide)

/-- C7, counterexample. The claim says an HTTP fetch failure is surfaced as
a typed service error distinct from the "no data" outcomes. A site whose
fetches all fail with a non-ok HTTP status produces exactly the same
handler result — byte for byte, including the 404 "no breeder information
found" error — as a site whose pages are merely empty. A caller cannot
distinguish them. -/
theorem c7_counterexample :
    scrapeHandler siteAllHttpError none true reqInitial freshSession
      = scrapeHandler siteBlankPages none true reqInitial freshSession := by
  decide

/-- C7, amended. When the HTTP fetch of a page does not return success,
`scrapeBreederPage` swallows the failure and returns the empty-data result
`{data: [], hasMorePages: false, totalEntries: 0}`; an Initial request on
such a page is answered with the same NotFound "no data" error used for an
actually empty page, so transport failures are not distinguishable from
absent data. -/
theorem c7_fetch_failure_amended (site : Int → FetchResult) (c : Option (List Record))
    (b : Bool) (req : ScrapeRequest) (sess : Session)
    (hrange : rangeRequested req = none) (hpag : req.pagination = false)
    (hurl : strTruthy (resolvedUrl req sess) = true)
    (hfail : site 1 = .httpError) :
    scrapeBreederPage site 1
        = { data := [], hasMorePages := false, totalEntries := 0, entriesPerPage := none } ∧
    (scrapeHandler site c b req sess).outcome
        = .notFound "No breeder information found on the provided URL. Please check the URL and try again." := by
  have hpage : scrapeBreederPage site 1
      = { data := [], hasMorePages := false, totalEntries := 0, entriesPerPage := none } := by
    unfold scrapeBreederPage
    rw [hfail]
  refine ⟨hpage, ?_⟩
  have hbr : (dispatchBranch site req { sess with lastUrl := resolvedUrl req sess }).out
      = .error "No breeder information found on the provided URL. Please check the URL and try again." := by
    rw [dispatchBranch_initial site req _ hrange hpag,
        initialBranch_empty site _ (by rw [hpage])]
  rw [scrapeHandler_notFound site c b req sess _ hurl hbr]

/-- C7, witness for the amended theorem on an all-failing site. -/
theorem c7_fetch_failure_amended_witness :
    scrapeBreederPage siteAllHttpError 1
        = { data := [], hasMorePages := false, totalEntries := 0, entriesPerPage := none } ∧
    (scrapeHandler siteAllHttpError none true reqInitial freshSession).outcome
        = .notFound "No breeder information found on the provided URL. Please check the URL and try again." :=
  c7_fetch_failure_amended siteAllHttpError none true reqInitial freshSession
    (by decide) rfl (by decide) rfl

/-- C9, witness: merging the duplicate page into a one-record aggregate
twice equals merging it once. -/
theorem c9_merge_idempotent_witness :
    (∀ item ∈ pageItemsJo, goodItem item) ∧
    mergeDedup (mergeDedup [recJo] pageItemsJo) pageItemsJo
      = mergeDedup [recJo] pageItemsJo :=
  ⟨by decide, c9_merge_idempotent [recJo] pageItemsJo (by decide)⟩

/-- C8. A failure of the durable-cache upsert never changes the handler's
behaviour: the handler's outcome, session mutation, fetched pages, and
attempted write are identical whether the upsert succeeds or fails — the
error is caught and only logged, and the request still returns its success
response with the scraped results. -/
theorem c8_upsert_nonfatal (site : Int → FetchResult) (c : Option (List Record))
    (req : ScrapeRequest) (sess : Session) (b b' : Bool) :
    scrapeHandler site c b req sess = scrapeHandler site c b' req sess := by
  cases b <;> cases b' <;> rfl

/-- The truncation bound of the page-range results. -/
theorem rangeResults_length (site : Int → FetchResult) (pr : PageRangeReq) :
    (rangeResults site pr).length ≤ (effStop pr - effStart pr + 1).toNat * 25 := by
  have hepp : (rangeScan site pr).entriesPerPage = some 25 :=
    rangeLoopAux_entriesPerPage site (effStop pr) _ (effStart pr) initialRangeState rfl
  by_cases hX : 0 ≤ effStop pr - effStart pr + 1
  · have hcap : (0 : Int) ≤ (effStop pr - effStart pr + 1) * ((25 : Nat) : Int) :=
      mul_nonneg hX (by norm_num)
    simp only [rangeResults, hepp, jsSlice0, if_pos hcap]
    have h1 := List.length_take_le ((effStop pr - effStart pr + 1) * ((25 : Nat) : Int)).toNat
      ((rangeScan site pr).resultsMap.map stripId)
    omega
  · have hmap : (rangeScan site pr).resultsMap = [] := by
      have hfuel : (effStop pr + 1 - effStart pr).toNat = 0 := by omega
      unfold rangeScan rangeLoop
      rw [hfuel]
      rfl
    simp [rangeResults, hmap, jsSlice0]

/-- C10. The result list of a PageRange request is the deduplicated merge
truncated by `slice(0, (end - start + 1) * entriesPerPage)` over the clamped
bounds with `entriesPerPage = 25`, so at most `(end - start + 1) × 25`
records are returned and anything beyond that count is silently dropped. -/
theorem c10_range_truncation (site : Int → FetchResult) (c : Option (List Record))
    (b : Bool) (req : ScrapeRequest) (sess : Session) (pr : PageRangeReq)
    (resp : ScrapeResponse)
    (hpr : rangeRequested req = some pr)
    (hout : (scrapeHandler site c b req sess).outcome = .success resp) :
    resp.results = rangeResults site pr ∧
    resp.results.length ≤ (effStop pr - effStart pr + 1).toNat * 25 := by
  obtain ⟨hT, hok⟩ := scrapeHandler_success_inv site c b req sess resp hout
  rw [dispatchBranch_range site req _ pr hpr] at hok
  have hpb : (pageRangeBranch site pr { sess with lastUrl := resolvedUrl req sess }).out
      = .ok (rangeResults site pr) := rfl
  rw [hpb] at hok
  have hres : resp.results = rangeResults site pr := (Except.ok.inj hok).symm
  refine ⟨hres, ?_⟩
  rw [hres]
  exact rangeResults_length site pr

/-- C10, witness at a concrete `1..3` request over `siteSeven`. -/
theorem c10_range_truncation_witness :
    (successResponse reqRange13 3 (rangeResults siteSeven { start := 1, stop := 3 })).results
        = rangeResults siteSeven { start := 1, stop := 3 } ∧
    (successResponse reqRange13 3
        (rangeResults siteSeven { start := 1, stop := 3 })).results.length
      ≤ (effStop { start := 1, stop := 3 } - effStart { start := 1, stop := 3 } + 1).toNat * 25 :=
  c10_range_truncation siteSeven none true reqRange13 freshSession
    { start := 1, stop := 3 } (successResponse reqRange13 3
      (rangeResults siteSeven { start := 1, stop := 3 })) (by decide) (by decide)
